import Mathlib

/-!
Verification of the conversation/run orchestration core of a desktop
multi-assistant chat application.

The development shallowly embeds the Python source:

* `AssistantConfig` and its `__eq__` method
  (sdk/.../management/assistant_config.py);
* `StreamEventHandler`, the run event translator that turns provider
  stream events into lifecycle callbacks
  (sdk/.../management/stream_event_handler.py);
* the orchestrator callbacks of `MainWindow` (gui/main_window.py):
  input processing, run-update / run-failed presentation handlers,
  attachment reconciliation, and the scheduled-task thread-binding table.

Python dictionaries are embedded as association lists so that
key-uniqueness is a provable invariant; fallible external collaborators
(provider client, thread store) are abstracted as explicit parameters.
-/

set_option maxHeartbeats 1000000

namespace AzureAiAssistantTool

/-! ## AssistantConfig (assistant_config.py)

`AssistantConfig.__init__` stores eleven attributes; `__eq__` compares
nine of them (`output_folder_path` and `assistant_type` are excluded) and
returns `NotImplemented` when the other operand is not an
`AssistantConfig`. -/

/-- The attributes of `AssistantConfig` that `__init__` stores.
`assistant_id` is `None`-able; `knowledge_files` is a dict from file name
to optional checksum embedded as an association list. -/
structure AssistantConfig where
  name : String
  instructions : String
  assistant_id : Option String
  ai_client_type : String
  model : String
  knowledge_files : List (String × Option String)
  selected_functions : List String
  knowledge_retrieval : Bool
  code_interpreter : Bool
  output_folder_path : String
  assistant_type : String
deriving DecidableEq, Repr

/-- A Python value that can stand on the right of `==`: either an
`AssistantConfig` instance or some value of another class. -/
inductive PyValue
  | assistantConfig (c : AssistantConfig)
  | otherObject (objectRepr : String)
deriving DecidableEq, Repr

/-- Result of a Python `__eq__` method: a boolean, or the
`NotImplemented` sentinel returned for operands of a foreign type. -/
inductive PyEqResult
  | value (b : Bool)
  | notImplemented
deriving DecidableEq, Repr

/-- The nine-field comparison on the last line of
`AssistantConfig.__eq__`. -/
def AssistantConfig.fieldsEq (a b : AssistantConfig) : Bool :=
  decide (a.name = b.name) &&
  decide (a.instructions = b.instructions) &&
  decide (a.assistant_id = b.assistant_id) &&
  decide (a.ai_client_type = b.ai_client_type) &&
  decide (a.model = b.model) &&
  decide (a.knowledge_files = b.knowledge_files) &&
  decide (a.selected_functions = b.selected_functions) &&
  decide (a.knowledge_retrieval = b.knowledge_retrieval) &&
  decide (a.code_interpreter = b.code_interpreter)

/-- Method `AssistantConfig.__eq__`: `NotImplemented` unless the operand is an
`AssistantConfig`, otherwise the nine-field comparison. -/
def AssistantConfig.pyEq (a : AssistantConfig) : PyValue → PyEqResult
  | .assistantConfig b => .value (a.fieldsEq b)
  | .otherObject _ => .notImplemented

/-! ## StreamEventHandler (stream_event_handler.py)

One handler instance translates the provider event stream of one run
into lifecycle callbacks on `parent._callbacks`.  Constructor state:
`_is_first_message = True`, `_is_started = False`, and the
`is_submit_tool_call` flag of the constructor argument. -/

/-- Per-run data the handler reads but does not modify: the assistant
name (`parent._assistant_config.name`), the provider-assigned run id
(`current_run.id`), the thread name resolved from the thread id, the
last user text message of the conversation (fetched when `on_run_start`
is emitted), and the wall-clock reading `str(datetime.now())`. -/
structure StreamCtx where
  name : String
  runId : String
  threadName : String
  userRequest : String
  now : String
deriving DecidableEq, Repr

/-- The mutable fields of `StreamEventHandler`. -/
structure StreamHandlerState where
  is_first_message : Bool
  is_started : Bool
  is_submit_tool_call : Bool
deriving DecidableEq, Repr

/-- Constructor `StreamEventHandler.__init__`: `_is_first_message = True`,
`_is_started = False`. -/
def StreamHandlerState.init (isSubmitToolCall : Bool) : StreamHandlerState :=
  { is_first_message := true, is_started := false,
    is_submit_tool_call := isSubmitToolCall }

/-- Provider stream events, one constructor per overridden handler
method.  `textDelta` carries `delta.value`; `messageDone` carries the
fully materialized message. -/
inductive StreamEvent
  | onExceptionEv
  | onTimeoutEv
  | onEndEv
  | messageCreated
  | messageDelta
  | messageDone (message : String)
  | textCreated
  | textDelta (value : String)
  | textDone
  | toolCallCreated
  | toolCallDelta
  | toolCallDone
deriving DecidableEq, Repr

/-- Lifecycle callbacks invoked on `parent._callbacks`.  `on_run_update`
carries the Python call's positional arguments; calls that omit the two
trailing parameters get the declared defaults `False` and `None`. -/
inductive Signal
  | on_run_start (assistant runId startTime userRequest : String)
  | on_run_update (assistant runId status threadName : String)
      (isFirstMessage : Bool) (message : Option String)
  | on_run_end (assistant runId endTime threadName : String)
deriving DecidableEq, Repr

namespace StreamEventHandler

/-- Method `on_text_created`: when not yet started and not a submit-tool-call
handler, fetch the last user message and emit `on_run_start`, then set
`_is_started`. -/
def on_text_created (ctx : StreamCtx) (s : StreamHandlerState) :
    StreamHandlerState × List Signal :=
  if s.is_started = false && s.is_submit_tool_call = false then
    ({ s with is_started := true },
     [Signal.on_run_start ctx.name ctx.runId ctx.now ctx.userRequest])
  else (s, [])

/-- Method `on_tool_call_created`: same guarded `on_run_start` emission as
`on_text_created` (the remaining body only logs). -/
def on_tool_call_created (ctx : StreamCtx) (s : StreamHandlerState) :
    StreamHandlerState × List Signal :=
  if s.is_started = false && s.is_submit_tool_call = false then
    ({ s with is_started := true },
     [Signal.on_run_start ctx.name ctx.runId ctx.now ctx.userRequest])
  else (s, [])

/-- Method `on_text_delta`: unconditionally emit
`on_run_update(..., "streaming", thread, _is_first_message, delta.value)`
and clear `_is_first_message`. -/
def on_text_delta (ctx : StreamCtx) (s : StreamHandlerState) (value : String) :
    StreamHandlerState × List Signal :=
  ({ s with is_first_message := false },
   [Signal.on_run_update ctx.name ctx.runId "streaming" ctx.threadName
      s.is_first_message (some value)])

/-- Method `on_message_done`: emit
`on_run_update(name, run_id, "completed", thread_name)`; the trailing
parameters take their defaults (`False`, `None`) — the materialized
message itself is not passed on. -/
def on_message_done (ctx : StreamCtx) (s : StreamHandlerState) :
    StreamHandlerState × List Signal :=
  (s, [Signal.on_run_update ctx.name ctx.runId "completed" ctx.threadName
         false none])

/-- Method `on_end`: emit `on_run_end` unless this handler was constructed for
a submit-tool-call resume stream. -/
def on_end (ctx : StreamCtx) (s : StreamHandlerState) :
    StreamHandlerState × List Signal :=
  if s.is_submit_tool_call = false then
    (s, [Signal.on_run_end ctx.name ctx.runId ctx.now ctx.threadName])
  else (s, [])

/-- Dispatch one provider event to the corresponding handler method.
`on_exception`, `on_timeout`, `on_message_created`, `on_message_delta`,
`on_text_done` and `on_tool_call_delta` only log.  `on_tool_call_done`
hands the tool-call batch to `_handle_required_action` synchronously and
emits no lifecycle signal itself. -/
def handle_event (ctx : StreamCtx) (s : StreamHandlerState) :
    StreamEvent → StreamHandlerState × List Signal
  | .textCreated => on_text_created ctx s
  | .toolCallCreated => on_tool_call_created ctx s
  | .textDelta v => on_text_delta ctx s v
  | .messageDone _ => on_message_done ctx s
  | .onEndEv => on_end ctx s
  | _ => (s, [])

/-- Modelled from the spec: the run event translator consumes the
ordered event stream of one run (spec section 4.2).  The tool-call
resume machinery (`_handle_required_action`, not part of the sources
under verification) adds no lifecycle signal of its own and does not
reset translator state, so the whole run is one fold of
`handle_event`. -/
def runStream (ctx : StreamCtx) (s : StreamHandlerState)
    (events : List StreamEvent) : StreamHandlerState × List Signal :=
  events.foldl
    (fun acc e =>
      let step := handle_event ctx acc.1 e
      (step.1, acc.2 ++ step.2))
    (s, [])

end StreamEventHandler

/-- Recognizer for `on_run_start` signals. -/
def Signal.isRunStart : Signal → Bool
  | .on_run_start _ _ _ _ => true
  | _ => false

/-- Recognizer for `on_run_end` signals. -/
def Signal.isRunEnd : Signal → Bool
  | .on_run_end _ _ _ _ => true
  | _ => false

/-- Projection keeping, in order, the `(is_first_message, message)`
arguments of the `on_run_update` signals whose status is `"streaming"`. -/
def streamingProj (sigs : List Signal) : List (Bool × Option String) :=
  sigs.filterMap fun g =>
    match g with
    | .on_run_update _ _ status _ fst msg =>
        if status = "streaming" then some (fst, msg) else none
    | _ => none

/-- Projection keeping, in order, the payloads of the text-delta events
of a provider stream. -/
def deltaProj (events : List StreamEvent) : List String :=
  events.filterMap fun e =>
    match e with
    | .textDelta v => some v
    | _ => none

/-- The expected first-chunk flagging of a list of delta payloads: the
flag is true for the head delta only. -/
def firstChunkFlags : List String → List (Bool × Option String)
  | [] => []
  | v :: vs => (true, some v) :: vs.map (fun u => (false, some u))

/-- Projection keeping, in order, the message arguments of the
`on_run_update` signals whose status is `"completed"`. -/
def completedProj (sigs : List Signal) : List (Option String) :=
  sigs.filterMap fun g =>
    match g with
    | .on_run_update _ _ status _ _ msg =>
        if status = "completed" then some msg else none
    | _ => none

/-! ## MainWindow input processing (main_window.py)

`process_input` reconciles attachments, appends the user message,
refreshes the view, then loops over the target assistants calling
`process_assistant_input`; its `except` clause emits an error notice and
a stop-processing notification for the assistant whose processing
raised.  `process_assistant_input` emits the start-processing
notification, calls `process_messages` on the assistant client when one
exists, and emits the stop-processing notification. -/

/-- Notifications and provider calls observable while processing input:
the `start_processing_signal` / `stop_processing_signal` emissions, the
`process_messages` submission to the provider, and the
`error_signal` emission of the `except` clause. -/
inductive UiEvent
  | startProcessing (assistant : String) (isScheduledTask : Bool)
  | stopProcessing (assistant : String) (isScheduledTask : Bool)
  | submitToProvider (assistant threadName : String)
  | errorNotice (message : String)
deriving DecidableEq, Repr

namespace MainWindow

/-- Method `process_assistant_input`: start notification; then, when the client
manager has a client for the assistant, the `process_messages`
submission.  `clientExists` abstracts `get_client(name) is not None`;
`raisesDuringProcessing` abstracts whether `process_messages` raises for
this assistant.  Returns the emitted events and whether an exception
escaped (in which case the trailing stop notification of the method body
was not reached). -/
def process_assistant_input (clientExists raisesDuringProcessing : String → Bool)
    (assistant threadName : String) (isScheduledTask : Bool) :
    List UiEvent × Bool :=
  let start := [UiEvent.startProcessing assistant isScheduledTask]
  if clientExists assistant then
    if raisesDuringProcessing assistant then
      (start ++ [UiEvent.submitToProvider assistant threadName], true)
    else
      (start ++ [UiEvent.submitToProvider assistant threadName,
                 UiEvent.stopProcessing assistant isScheduledTask], false)
  else
    (start ++ [UiEvent.stopProcessing assistant isScheduledTask], false)

/-- The message built in the `except` clause of `process_input`. -/
def processInputErrorMessage : String :=
  "An error occurred while processing the input"

/-- The assistant loop of `process_input` together with its enclosing
`try/except`: on the first assistant whose processing raises, the
`except` clause emits the error notice and a stop notification for that
assistant (the loop variable), and the loop does not continue. -/
def processAssistantsLoop (clientExists raisesDuringProcessing : String → Bool)
    (threadName : String) (isScheduledTask : Bool) :
    List String → List UiEvent
  | [] => []
  | assistant :: rest =>
    let step := process_assistant_input clientExists raisesDuringProcessing
      assistant threadName isScheduledTask
    if step.2 then
      step.1 ++ [UiEvent.errorNotice processInputErrorMessage,
                 UiEvent.stopProcessing assistant isScheduledTask]
    else
      step.1 ++ processAssistantsLoop clientExists raisesDuringProcessing
        threadName isScheduledTask rest

/-- Method `process_input`.  Parameter `preLoopRaises` abstracts an exception in the
steps before the assistant loop (attachment sync, message creation,
transcript refresh); on that path the `except` clause emits the error
notice and then crashes with `UnboundLocalError` on the unbound loop
variable `assistant_name`, so no processing notification is emitted at
all. -/
def process_input (clientExists raisesDuringProcessing : String → Bool)
    (preLoopRaises : Bool) (assistants : List String)
    (threadName : String) (isScheduledTask : Bool) : List UiEvent :=
  if preLoopRaises then [UiEvent.errorNotice processInputErrorMessage]
  else processAssistantsLoop clientExists raisesDuringProcessing
    threadName isScheduledTask assistants

end MainWindow

/-- Recognizer for start-processing notifications of a given assistant. -/
def UiEvent.isStartFor (a : String) : UiEvent → Bool
  | .startProcessing b _ => b == a
  | _ => false

/-- Recognizer for stop-processing notifications of a given assistant. -/
def UiEvent.isStopFor (a : String) : UiEvent → Bool
  | .stopProcessing b _ => b == a
  | _ => false

/-- A well-formed processing segment for one assistant: it opens with
the start notification, closes with the stop notification, and any
provider submission sits strictly between the two; the three shapes are
the no-client path, the normal path, and the exception path. -/
def processedSegment (sched : Bool) : List UiEvent → Bool
  | [UiEvent.startProcessing a s, UiEvent.stopProcessing a1 s1] =>
      a == a1 && s == sched && s1 == sched
  | [UiEvent.startProcessing a s, UiEvent.submitToProvider a1 _,
     UiEvent.stopProcessing a2 s1] =>
      a == a1 && a == a2 && s == sched && s1 == sched
  | [UiEvent.startProcessing a s, UiEvent.submitToProvider a1 _,
     UiEvent.errorNotice _, UiEvent.stopProcessing a2 s1] =>
      a == a1 && a == a2 && s == sched && s1 == sched
  | _ => false

/-! ## MainWindow presentation handlers (main_window.py)

`on_run_update` checks `is_current_conversation_thread(thread_name)`
first and returns without touching the view when the signal is for a
thread other than the displayed one; `on_run_failed` performs no such
check and unconditionally refreshes the conversation view from the
signal's thread. -/

/-- A conversation message as the presentation handlers read it: only
its optional text part matters here. -/
structure ConversationMessage where
  text_message : Option String
deriving DecidableEq, Repr

/-- Python truthiness of the optional text part (`None` and the empty
string are falsy). -/
def pyTruthyText : Option String → Bool
  | none => false
  | some s => !(s == "")

/-- Qt signals the presentation handlers emit: conversation-view
mutations and the diagnostics-sidebar end-of-run entry. -/
inductive ViewAction
  | appendChunk (assistant content : String) (isFirstMessage : Bool)
  | appendMessage (message : ConversationMessage)
  | clearConversation
  | appendMessages (messages : List ConversationMessage)
  | diagnosticsEndRun (assistant runId endTime info : String)
deriving DecidableEq, Repr

/-- Conversation-view mutations (everything except the diagnostics
entry). -/
def ViewAction.touchesConversationView : ViewAction → Bool
  | .diagnosticsEndRun _ _ _ _ => false
  | _ => true

namespace MainWindow

/-- Method `update_conversation_messages`: clear the view, then append the
fetched messages. -/
def update_conversation_messages (fetched : List ConversationMessage) :
    List ViewAction :=
  [ViewAction.clearConversation, ViewAction.appendMessages fetched]

/-- Method `on_run_update`.  Parameter `isCurrent` abstracts
`is_current_conversation_thread`; `fetch` abstracts
`retrieve_conversation`, returning the authoritative conversation of a
thread name. -/
def on_run_update (isCurrent : String → Bool)
    (fetch : String → List ConversationMessage)
    (assistantName runId runStatus threadName : String)
    (isFirstMessage : Bool) (message : Option ConversationMessage) :
    List ViewAction :=
  if isCurrent threadName = false then []
  else if runStatus = "streaming" then
    match message with
    | some m =>
        if pyTruthyText m.text_message then
          [ViewAction.appendChunk assistantName
             (m.text_message.getD "") isFirstMessage]
        else []
    | none => []
  else if runStatus = "in_progress" && message.isSome then
    match message with
    | some m => [ViewAction.appendMessage m]
    | none => []
  else
    if (fetch threadName).isEmpty then []
    else update_conversation_messages (fetch threadName)

/-- Method `on_run_failed`: diagnostics entry, then an unconditional
conversation-view refresh from the signal's thread — there is no
current-thread check on this path.  (The realtime-assistant UI toggles
of `handle_realtime_run_end` are outside the embedded action
alphabet.) -/
def on_run_failed (fetch : String → List ConversationMessage)
    (assistantName runId runEndTime errorCode errorMessage threadName :
      String) : List ViewAction :=
  [ViewAction.diagnosticsEndRun assistantName runId runEndTime
     ("Run failed due to error code: " ++ errorCode ++ ", message: "
       ++ errorMessage)]
  ++ update_conversation_messages (fetch threadName)

end MainWindow

/-! ## Attachment reconciliation (main_window.py)

`update_attachments_from_ui_to_thread` diffs the thread's existing
attachments against the submitted set: every existing attachment whose
file id is absent from the submitted ids is removed from the thread
configuration, and additionally deleted from the remote file store when
its kind is not `IMAGE_FILE`. -/

/-- Modelled from the spec: the attachment kind tag
{code-interpreter-input, search-index-input, image} (the SDK enum
`AttachmentType` is outside the sources under verification; the
reconciliation code only distinguishes `IMAGE_FILE` from the rest). -/
inductive AttachmentType
  | imageFile
  | codeInterpreterFile
  | fileSearchFile
deriving DecidableEq, Repr

/-- An attachment as the reconciliation reads it: its file id and kind
tag. -/
structure Attachment where
  file_id : String
  attachment_type : AttachmentType
deriving DecidableEq, Repr

/-- Modelled from the spec: `remove_attachment_from_thread` of the
thread configuration store (outside the sources under verification)
detaches the attachment with the given file id from the thread's
attachment list. -/
def remove_attachment_from_thread (atts : List Attachment)
    (fileId : String) : List Attachment :=
  atts.filter (fun a => !(a.file_id == fileId))

namespace MainWindow

/-- Method `update_attachments_from_ui_to_thread`: compute the submitted ids,
filter the existing attachments down to those to remove, then for each
one detach it from the thread configuration and, unless it is an image
attachment, delete it from the remote store.  Returns the thread's
attachment list after the loop and the file ids deleted remotely, in
order. -/
def update_attachments_from_ui_to_thread (existing : List Attachment)
    (attachments_dicts : List Attachment) : List Attachment × List String :=
  let all_attachment_ids := attachments_dicts.map (fun att => att.file_id)
  let attachments_to_remove :=
    existing.filter (fun att => !(all_attachment_ids.contains att.file_id))
  attachments_to_remove.foldl
    (fun acc attachment =>
      (remove_attachment_from_thread acc.1 attachment.file_id,
       if attachment.attachment_type = AttachmentType.imageFile then acc.2
       else acc.2 ++ [attachment.file_id]))
    (existing, [])

end MainWindow

/-! ## Scheduled-task thread bindings (main_window.py)

`scheduled_task_threads` is a dict from schedule id to thread name.
`on_task_started`, `handle_execution` and `cleanup_scheduled_thread`
each wrap their whole body in `with self.thread_lock:`, so concurrent
scheduler callbacks serialize into a sequence of atomic table
operations.  The dict is embedded as an association list so that
key-uniqueness is an invariant to prove, not a structural given. -/

/-- The binding table: association list from schedule id to the bound
thread name.  The value mirrors Python exactly: `handle_execution`
stores `scheduled_task_threads.get(schedule_id)`, which is `None` when
the key is absent, so the stored value is optional. -/
abbrev BindingTable := List (Nat × Option String)

/-- Python `dict.__getitem__`-style lookup: the stored value, when the
key is present. -/
def lookupBinding : BindingTable → Nat → Option (Option String)
  | [], _ => none
  | (k, v) :: rest, sid => if k = sid then some v else lookupBinding rest sid

/-- Python `dict.get(key)`: the stored value, or `None` when absent. -/
def dictGet (tbl : BindingTable) (sid : Nat) : Option String :=
  (lookupBinding tbl sid).getD none

/-- Python `key in dict`. -/
def dictContains (tbl : BindingTable) (sid : Nat) : Bool :=
  (lookupBinding tbl sid).isSome

/-- Python `dict[key] = value`: replace the value of an existing entry,
or append a fresh entry. -/
def dictSet : BindingTable → Nat → Option String → BindingTable
  | [], sid, v => [(sid, v)]
  | (k, w) :: rest, sid, v =>
    if k = sid then (k, v) :: rest else (k, w) :: dictSet rest sid v

/-- Python `del dict[key]` (the callers guard it with `key in dict`). -/
def dictDelete (tbl : BindingTable) (sid : Nat) : BindingTable :=
  tbl.filter (fun p => !(p.1 == sid))

namespace MainWindow

/-- Method `on_task_started` (body of its `with self.thread_lock:` block): when
no binding exists for the schedule id, set up a conversation thread and
bind its name. `newThreadName` abstracts the name
`setup_conversation_thread(True)` returns. -/
def on_task_started (tbl : BindingTable) (sid : Nat)
    (newThreadName : String) : BindingTable :=
  if dictContains tbl sid then tbl else dictSet tbl sid (some newThreadName)

/-- Method `handle_execution` (body of its `with self.thread_lock:` block):
read the bound thread name with `.get`, optionally replace it with the
system-assistant-generated title, and write it back.  `updateTitle`
abstracts `update_conversation_title`. -/
def handle_execution (tbl : BindingTable) (sid : Nat)
    (useSystemAssistantForThreadName : Bool)
    (updateTitle : Option String → Option String) : BindingTable :=
  let threadName := dictGet tbl sid
  let threadName :=
    if useSystemAssistantForThreadName then updateTitle threadName
    else threadName
  dictSet tbl sid threadName

/-- Method `cleanup_scheduled_thread` (body of its `with self.thread_lock:`
block), called by both `on_task_completed` and `on_task_failed`: delete
the binding when present. -/
def cleanup_scheduled_thread (tbl : BindingTable) (sid : Nat) :
    BindingTable :=
  if dictContains tbl sid then dictDelete tbl sid else tbl

end MainWindow

/-- One scheduler callback touching the binding table, with the
arguments that reach the table code.  `execute` covers each
`handle_execution` call `on_task_execute` makes (a batch or multi task
makes several in sequence); `completed` and `failed` are the terminal
callbacks, which both call `cleanup_scheduled_thread`. -/
inductive TaskOp
  | started (sid : Nat) (newThreadName : String)
  | execute (sid : Nat) (useSystemAssistantForThreadName : Bool)
      (updateTitle : Option String → Option String)
  | completed (sid : Nat)
  | failed (sid : Nat)

/-- Apply one scheduler callback to the binding table.  Each callback
holds `thread_lock` for its whole body, so any concurrent execution of
the callbacks is equivalent to some sequence of these atomic steps. -/
def taskStep (tbl : BindingTable) : TaskOp → BindingTable
  | .started sid name => MainWindow.on_task_started tbl sid name
  | .execute sid useTitle f => MainWindow.handle_execution tbl sid useTitle f
  | .completed sid => MainWindow.cleanup_scheduled_thread tbl sid
  | .failed sid => MainWindow.cleanup_scheduled_thread tbl sid

/-- The binding table after a sequence of scheduler callbacks, starting
from the empty dict created in `__init__`. -/
def runTaskOps (ops : List TaskOp) : BindingTable :=
  ops.foldl taskStep []

/-- Is a callback one of the `on_task_execute` calls? -/
def TaskOp.isExecute : TaskOp → Prop
  | .execute _ _ _ => True
  | _ => False

/-- Fine-grained events of one callback body: lock acquisition and
release (`with self.thread_lock:` entry and exit) and the individual
binding-table accesses. -/
inductive LockEvent
  | acquire
  | release
  | tableRead (sid : Nat)
  | tableWrite (sid : Nat)
deriving DecidableEq, Repr

/-- The event trace of one scheduler callback, as the source orders it:
the whole body — every table read and write of the read-modify-write
sequence — sits inside one `with self.thread_lock:` block. -/
def opEvents (tbl : BindingTable) : TaskOp → List LockEvent
  | .started sid _ =>
      [LockEvent.acquire, LockEvent.tableRead sid]
        ++ (if dictContains tbl sid then [] else [LockEvent.tableWrite sid])
        ++ [LockEvent.release]
  | .execute sid _ _ =>
      [LockEvent.acquire, LockEvent.tableRead sid, LockEvent.tableWrite sid,
       LockEvent.release]
  | .completed sid =>
      [LockEvent.acquire, LockEvent.tableRead sid]
        ++ (if dictContains tbl sid then [LockEvent.tableWrite sid] else [])
        ++ [LockEvent.release]
  | .failed sid =>
      [LockEvent.acquire, LockEvent.tableRead sid]
        ++ (if dictContains tbl sid then [LockEvent.tableWrite sid] else [])
        ++ [LockEvent.release]

/-- Does a table access appear in the event trace only while the lock
is held (depth of nested acquisitions positive)? -/
def accessesLocked : Nat → List LockEvent → Bool
  | _, [] => true
  | d, LockEvent.acquire :: rest => accessesLocked (d + 1) rest
  | d, LockEvent.release :: rest => accessesLocked (d - 1) rest
  | d, LockEvent.tableRead _ :: rest => decide (0 < d) && accessesLocked d rest
  | d, LockEvent.tableWrite _ :: rest => decide (0 < d) && accessesLocked d rest

/-- Is an event a lock acquisition or release? -/
def LockEvent.isLockEdge : LockEvent → Bool
  | .acquire => true
  | .release => true
  | _ => false

/-! ## Helper lemmas -/

/-- Unfolding the signal accumulator of `runStream`. -/
theorem runStream_foldl (ctx : StreamCtx) :
    ∀ (t : List StreamEvent) (s : StreamHandlerState) (acc : List Signal),
      t.foldl
        (fun a e =>
          let step := StreamEventHandler.handle_event ctx a.1 e
          (step.1, a.2 ++ step.2)) (s, acc) =
      ((StreamEventHandler.runStream ctx s t).1,
       acc ++ (StreamEventHandler.runStream ctx s t).2)
  | [], s, acc => by simp [StreamEventHandler.runStream]
  | e :: t, s, acc => by
    simp only [StreamEventHandler.runStream, List.foldl_cons]
    rw [runStream_foldl ctx t _ _, runStream_foldl ctx t _ _]
    simp

/-- Running `runStream` on a cons: the head event's signals come first. -/
theorem runStream_cons (ctx : StreamCtx) (s : StreamHandlerState)
    (e : StreamEvent) (t : List StreamEvent) :
    StreamEventHandler.runStream ctx s (e :: t) =
      ((StreamEventHandler.runStream ctx
          (StreamEventHandler.handle_event ctx s e).1 t).1,
       (StreamEventHandler.handle_event ctx s e).2 ++
         (StreamEventHandler.runStream ctx
           (StreamEventHandler.handle_event ctx s e).1 t).2) := by
  simp only [StreamEventHandler.runStream, List.foldl_cons]
  rw [runStream_foldl ctx t _ _]
  simp [StreamEventHandler.runStream]

/-- Running `runStream` on an append runs the suffix from the prefix's final
state. -/
theorem runStream_append (ctx : StreamCtx) (s : StreamHandlerState)
    (t u : List StreamEvent) :
    StreamEventHandler.runStream ctx s (t ++ u) =
      ((StreamEventHandler.runStream ctx
          (StreamEventHandler.runStream ctx s t).1 u).1,
       (StreamEventHandler.runStream ctx s t).2 ++
         (StreamEventHandler.runStream ctx
           (StreamEventHandler.runStream ctx s t).1 u).2) := by
  induction t generalizing s with
  | nil => simp [StreamEventHandler.runStream]
  | cons e t ih =>
    rw [List.cons_append, runStream_cons, runStream_cons, ih]
    simp

/-- No handler method modifies `_is_submit_tool_call`. -/
theorem handle_event_submit_invariant (ctx : StreamCtx)
    (s : StreamHandlerState) (e : StreamEvent) :
    (StreamEventHandler.handle_event ctx s e).1.is_submit_tool_call =
      s.is_submit_tool_call := by
  cases e <;>
    simp [StreamEventHandler.handle_event, StreamEventHandler.on_text_created,
      StreamEventHandler.on_tool_call_created, StreamEventHandler.on_text_delta,
      StreamEventHandler.on_message_done, StreamEventHandler.on_end] <;>
    split <;> rfl

/-- Flag `_is_submit_tool_call` is invariant across a whole stream. -/
theorem runStream_submit_invariant (ctx : StreamCtx) :
    ∀ (t : List StreamEvent) (s : StreamHandlerState),
      (StreamEventHandler.runStream ctx s t).1.is_submit_tool_call =
        s.is_submit_tool_call
  | [], s => by simp [StreamEventHandler.runStream]
  | e :: t, s => by
    rw [runStream_cons]
    simp only
    rw [runStream_submit_invariant ctx t _, handle_event_submit_invariant]

/-! ## C10 -/

/-- C10: `AssistantConfig.__eq__` compares exactly the nine fields
`name`, `instructions`, `assistant_id`, `ai_client_type`, `model`,
`knowledge_files`, `selected_functions`, `knowledge_retrieval` and
`code_interpreter`; two configurations agreeing on those compare equal
even when `output_folder_path` and `assistant_type` differ, and
comparison with a value of another class returns `NotImplemented`. -/
theorem C10_assistant_config_eq_compares_nine_fields :
    (∀ a b : AssistantConfig,
        a.pyEq (PyValue.assistantConfig b) = PyEqResult.value true ↔
          (a.name = b.name ∧ a.instructions = b.instructions ∧
           a.assistant_id = b.assistant_id ∧
           a.ai_client_type = b.ai_client_type ∧ a.model = b.model ∧
           a.knowledge_files = b.knowledge_files ∧
           a.selected_functions = b.selected_functions ∧
           a.knowledge_retrieval = b.knowledge_retrieval ∧
           a.code_interpreter = b.code_interpreter)) ∧
    (∀ (a : AssistantConfig) (objectRepr : String),
        a.pyEq (PyValue.otherObject objectRepr) =
          PyEqResult.notImplemented) ∧
    (∃ a b : AssistantConfig,
        a.output_folder_path ≠ b.output_folder_path ∧
        a.assistant_type ≠ b.assistant_type ∧
        a.pyEq (PyValue.assistantConfig b) = PyEqResult.value true) := by
  refine ⟨fun a b => ?_, fun a r => rfl, ?_⟩
  · simp [AssistantConfig.pyEq, AssistantConfig.fieldsEq, Bool.and_eq_true,
      decide_eq_true_eq, and_assoc]
  · exact ⟨{ name := "n", instructions := "i", assistant_id := none,
             ai_client_type := "OPEN_AI", model := "gpt", knowledge_files := [],
             selected_functions := [], knowledge_retrieval := false,
             code_interpreter := false, output_folder_path := "out1",
             assistant_type := "assistant" },
           { name := "n", instructions := "i", assistant_id := none,
             ai_client_type := "OPEN_AI", model := "gpt", knowledge_files := [],
             selected_functions := [], knowledge_retrieval := false,
             code_interpreter := false, output_folder_path := "out2",
             assistant_type := "chat_assistant" },
           by decide, by decide, by decide⟩

/-! ## C5 -/

/-- Closed form of the completed-status updates of a stream: one per
`on_message_done` event, each carrying no message payload. -/
theorem completedProj_runStream (ctx : StreamCtx) :
    ∀ (t : List StreamEvent) (s : StreamHandlerState),
      completedProj (StreamEventHandler.runStream ctx s t).2 =
        t.filterMap (fun e =>
          match e with
          | StreamEvent.messageDone _ => some (none : Option String)
          | _ => none)
  | [], s => by simp [StreamEventHandler.runStream, completedProj]
  | e :: t, s => by
    rw [runStream_cons]
    simp only [completedProj, List.filterMap_append, List.filterMap_cons]
    rw [← completedProj, ← completedProj, completedProj_runStream ctx t _]
    cases e <;>
      simp [StreamEventHandler.handle_event,
        StreamEventHandler.on_text_created,
        StreamEventHandler.on_tool_call_created,
        StreamEventHandler.on_text_delta, StreamEventHandler.on_message_done,
        StreamEventHandler.on_end, completedProj] <;>
      split <;> simp [completedProj]

/-- C5 counterexample: on a fully materialized message
(`on_message_done`), the translator emits `on_run_update` with status
`"completed"` and no message payload — not an `"in_progress"` update
carrying the complete message as claimed. -/
theorem C5_counterexample_message_done_update :
    (StreamEventHandler.handle_event ⟨"a", "r1", "t", "u", "now"⟩
        (StreamHandlerState.init false) (StreamEvent.messageDone "full")).2 =
      [Signal.on_run_update "a" "r1" "completed" "t" false none] ∧
    ((StreamEventHandler.handle_event ⟨"a", "r1", "t", "u", "now"⟩
        (StreamHandlerState.init false)
        (StreamEvent.messageDone "full")).2.countP (fun g =>
          match g with
          | Signal.on_run_update _ _ status _ _ msg =>
              status == "in_progress" && msg == some "full"
          | _ => false)) = 0 := by
  exact ⟨rfl, by decide⟩

/-- C5 amended: every fully materialized (non-delta) message event maps
to exactly one `on_run_update` signal, with status `"completed"` and no
message payload (the trailing parameters keep their defaults); the
receiver falls back to a full conversation refresh on such updates. -/
theorem C5_message_done_emits_completed_update (ctx : StreamCtx)
    (t : List StreamEvent) (s : StreamHandlerState) (m : String) :
    completedProj (StreamEventHandler.runStream ctx
        (StreamHandlerState.init false) t).2 =
      t.filterMap (fun e =>
        match e with
        | StreamEvent.messageDone _ => some (none : Option String)
        | _ => none) ∧
    (StreamEventHandler.handle_event ctx s (StreamEvent.messageDone m)).2 =
      [Signal.on_run_update ctx.name ctx.runId "completed" ctx.threadName
         false none] := by
  exact ⟨completedProj_runStream ctx t _, rfl⟩

/-! ## C4 -/

/-- Closed form of the streaming updates of a stream: one per text
delta, in order, carrying the delta payload; the first-chunk flag is
`_is_first_message` at the time of the delta — true for the head delta
only when the handler starts with `_is_first_message`, false for every
later delta, whatever other events (including tool-call ones) occur in
between. -/
theorem streamingProj_runStream (ctx : StreamCtx) :
    ∀ (t : List StreamEvent) (s : StreamHandlerState),
      streamingProj (StreamEventHandler.runStream ctx s t).2 =
        (if s.is_first_message then firstChunkFlags (deltaProj t)
         else (deltaProj t).map (fun u => (false, some u)))
  | [], s => by
    cases h : s.is_first_message <;>
      simp [StreamEventHandler.runStream, streamingProj, deltaProj,
        firstChunkFlags, h]
  | e :: t, s => by
    rw [runStream_cons]
    simp only [streamingProj, List.filterMap_append]
    rw [← streamingProj, ← streamingProj, streamingProj_runStream ctx t _]
    cases e with
    | textDelta v =>
      simp only [StreamEventHandler.handle_event,
        StreamEventHandler.on_text_delta]
      cases h : s.is_first_message <;>
        simp [streamingProj, deltaProj, firstChunkFlags, h]
    | textCreated =>
      simp only [StreamEventHandler.handle_event,
        StreamEventHandler.on_text_created]
      split <;> simp [streamingProj, deltaProj]
    | toolCallCreated =>
      simp only [StreamEventHandler.handle_event,
        StreamEventHandler.on_tool_call_created]
      split <;> simp [streamingProj, deltaProj]
    | onEndEv =>
      simp only [StreamEventHandler.handle_event, StreamEventHandler.on_end]
      split <;> simp [streamingProj, deltaProj]
    | messageDone m =>
      simp [StreamEventHandler.handle_event,
        StreamEventHandler.on_message_done, streamingProj, deltaProj]
    | onExceptionEv =>
      simp [StreamEventHandler.handle_event, streamingProj, deltaProj]
    | onTimeoutEv =>
      simp [StreamEventHandler.handle_event, streamingProj, deltaProj]
    | messageCreated =>
      simp [StreamEventHandler.handle_event, streamingProj, deltaProj]
    | messageDelta =>
      simp [StreamEventHandler.handle_event, streamingProj, deltaProj]
    | textDone =>
      simp [StreamEventHandler.handle_event, streamingProj, deltaProj]
    | toolCallDelta =>
      simp [StreamEventHandler.handle_event, streamingProj, deltaProj]
    | toolCallDone =>
      simp [StreamEventHandler.handle_event, streamingProj, deltaProj]

/-- C4: each streaming text delta produces exactly one
`on_run_update(status="streaming")` signal, and across the run's whole
event stream the first-chunk flags of those signals mark exactly the
very first delta — deltas arriving after tool-call events of the same
stream carry a false flag. -/
theorem C4_streaming_deltas_first_chunk_flag (ctx : StreamCtx)
    (t : List StreamEvent) (s : StreamHandlerState) (v : String) :
    streamingProj (StreamEventHandler.runStream ctx
        (StreamHandlerState.init false) t).2 =
      firstChunkFlags (deltaProj t) ∧
    (StreamEventHandler.handle_event ctx s (StreamEvent.textDelta v)).2 =
      [Signal.on_run_update ctx.name ctx.runId "streaming" ctx.threadName
         s.is_first_message (some v)] := by
  refine ⟨?_, rfl⟩
  rw [streamingProj_runStream ctx t _]
  rfl

/-! ## C1 -/

/-- Running `runStream` on the empty stream. -/
theorem runStream_nil (ctx : StreamCtx) (s : StreamHandlerState) :
    StreamEventHandler.runStream ctx s [] = (s, []) := rfl

/-- Running `runStream` on a single event. -/
theorem runStream_singleton (ctx : StreamCtx) (s : StreamHandlerState)
    (e : StreamEvent) :
    StreamEventHandler.runStream ctx s [e] =
      StreamEventHandler.handle_event ctx s e := by
  rw [runStream_cons, runStream_nil]
  simp

/-- One event emits at most one `on_run_start`, and emitting one both
requires and establishes the started flag. -/
theorem handle_event_start_step (ctx : StreamCtx) (s : StreamHandlerState)
    (e : StreamEvent) :
    (StreamEventHandler.handle_event ctx s e).2.countP Signal.isRunStart +
      (if (StreamEventHandler.handle_event ctx s e).1.is_started ||
          (StreamEventHandler.handle_event ctx s e).1.is_submit_tool_call
        then 0 else 1) ≤
      (if s.is_started || s.is_submit_tool_call then 0 else 1) := by
  cases e <;> cases hs : s.is_started <;> cases hb : s.is_submit_tool_call <;>
    simp [StreamEventHandler.handle_event, StreamEventHandler.on_text_created,
      StreamEventHandler.on_tool_call_created, StreamEventHandler.on_text_delta,
      StreamEventHandler.on_message_done, StreamEventHandler.on_end,
      Signal.isRunStart, hs, hb]

/-- Across one stream at most one `on_run_start` is emitted, and none
once the handler has started or when it is a submit-tool-call
handler. -/
theorem countStart_runStream (ctx : StreamCtx) :
    ∀ (t : List StreamEvent) (s : StreamHandlerState),
      (StreamEventHandler.runStream ctx s t).2.countP Signal.isRunStart ≤
        (if s.is_started || s.is_submit_tool_call then 0 else 1)
  | [], s => by simp [StreamEventHandler.runStream]
  | e :: t, s => by
    rw [runStream_cons]
    simp only [List.countP_append]
    calc (StreamEventHandler.handle_event ctx s e).2.countP Signal.isRunStart +
          (StreamEventHandler.runStream ctx
            (StreamEventHandler.handle_event ctx s e).1 t).2.countP
            Signal.isRunStart ≤
        (StreamEventHandler.handle_event ctx s e).2.countP Signal.isRunStart +
          (if (StreamEventHandler.handle_event ctx s e).1.is_started ||
              (StreamEventHandler.handle_event ctx s e).1.is_submit_tool_call
            then 0 else 1) := by
          exact Nat.add_le_add_left (countStart_runStream ctx t _) _
      _ ≤ (if s.is_started || s.is_submit_tool_call then 0 else 1) :=
          handle_event_start_step ctx s e

/-- An event other than the stream end emits no `on_run_end`. -/
theorem handle_event_no_end (ctx : StreamCtx) (s : StreamHandlerState)
    (e : StreamEvent) (h : e ≠ StreamEvent.onEndEv) :
    (StreamEventHandler.handle_event ctx s e).2.countP Signal.isRunEnd = 0 := by
  cases e with
  | onEndEv => exact absurd rfl h
  | textCreated =>
    simp only [StreamEventHandler.handle_event,
      StreamEventHandler.on_text_created]
    split <;> simp [Signal.isRunEnd]
  | toolCallCreated =>
    simp only [StreamEventHandler.handle_event,
      StreamEventHandler.on_tool_call_created]
    split <;> simp [Signal.isRunEnd]
  | textDelta v =>
    simp [StreamEventHandler.handle_event, StreamEventHandler.on_text_delta,
      Signal.isRunEnd]
  | messageDone m =>
    simp [StreamEventHandler.handle_event, StreamEventHandler.on_message_done,
      Signal.isRunEnd]
  | onExceptionEv => simp [StreamEventHandler.handle_event]
  | onTimeoutEv => simp [StreamEventHandler.handle_event]
  | messageCreated => simp [StreamEventHandler.handle_event]
  | messageDelta => simp [StreamEventHandler.handle_event]
  | textDone => simp [StreamEventHandler.handle_event]
  | toolCallDelta => simp [StreamEventHandler.handle_event]
  | toolCallDone => simp [StreamEventHandler.handle_event]

/-- A stream without the end event emits no `on_run_end`. -/
theorem countEnd_runStream_zero (ctx : StreamCtx) :
    ∀ (t : List StreamEvent) (s : StreamHandlerState),
      StreamEvent.onEndEv ∉ t →
      (StreamEventHandler.runStream ctx s t).2.countP Signal.isRunEnd = 0
  | [], s, _ => by simp [StreamEventHandler.runStream]
  | e :: t, s, h => by
    rw [runStream_cons]
    simp only [List.countP_append]
    rw [handle_event_no_end ctx s e (fun he => h (he ▸ List.mem_cons_self e t)),
      countEnd_runStream_zero ctx t _ (fun ht => h (List.mem_cons_of_mem e ht))]

/-- C1: for a run whose provider stream delivers the terminal end event
last, the translator emits `on_run_start` at most once; it emits it only
when the first content-bearing event (first text token or first
tool-call) arrives with the handler not yet started — never merely on
submission, which emits nothing; and the single `on_run_end` is the very
last signal of the stream, so whenever both are emitted `on_run_start`
strictly precedes `on_run_end`. -/
theorem C1_run_start_once_strictly_before_run_end (ctx : StreamCtx)
    (t : List StreamEvent) (s : StreamHandlerState) (e : StreamEvent)
    (hend : StreamEvent.onEndEv ∉ t) :
    ((StreamEventHandler.runStream ctx (StreamHandlerState.init false)
        (t ++ [StreamEvent.onEndEv])).2.countP Signal.isRunStart ≤ 1) ∧
    (∀ g ∈ (StreamEventHandler.handle_event ctx s e).2, g.isRunStart = true →
      (e = StreamEvent.textCreated ∨ e = StreamEvent.toolCallCreated) ∧
        s.is_started = false ∧ s.is_submit_tool_call = false) ∧
    ((StreamEventHandler.runStream ctx (StreamHandlerState.init false)
        (t ++ [StreamEvent.onEndEv])).2 =
      (StreamEventHandler.runStream ctx (StreamHandlerState.init false) t).2 ++
        [Signal.on_run_end ctx.name ctx.runId ctx.now ctx.threadName]) ∧
    ((StreamEventHandler.runStream ctx (StreamHandlerState.init false)
        t).2.countP Signal.isRunEnd = 0) := by
  have hsub : (StreamEventHandler.runStream ctx (StreamHandlerState.init false)
      t).1.is_submit_tool_call = false := by
    rw [runStream_submit_invariant]
    rfl
  have hdec : (StreamEventHandler.runStream ctx (StreamHandlerState.init false)
      (t ++ [StreamEvent.onEndEv])).2 =
      (StreamEventHandler.runStream ctx (StreamHandlerState.init false) t).2 ++
        [Signal.on_run_end ctx.name ctx.runId ctx.now ctx.threadName] := by
    rw [runStream_append, runStream_singleton]
    simp [StreamEventHandler.handle_event, StreamEventHandler.on_end, hsub]
  refine ⟨?_, ?_, hdec, countEnd_runStream_zero ctx t _ hend⟩
  · rw [hdec]
    have h1 := countStart_runStream ctx t (StreamHandlerState.init false)
    simp only [show (StreamHandlerState.init false).is_started = false from rfl,
      show (StreamHandlerState.init false).is_submit_tool_call = false from rfl,
      Bool.or_false] at h1
    simp at h1
    simp [List.countP_append, List.countP_cons, List.countP_nil,
      Signal.isRunStart]
    omega
  · intro g hg hstart
    cases e with
    | textCreated =>
      simp only [StreamEventHandler.handle_event,
        StreamEventHandler.on_text_created] at hg
      split at hg
      · refine ⟨Or.inl rfl, ?_⟩
        simp_all
      · simp at hg
    | toolCallCreated =>
      simp only [StreamEventHandler.handle_event,
        StreamEventHandler.on_tool_call_created] at hg
      split at hg
      · refine ⟨Or.inr rfl, ?_⟩
        simp_all
      · simp at hg
    | textDelta v =>
      simp only [StreamEventHandler.handle_event,
        StreamEventHandler.on_text_delta, List.mem_singleton] at hg
      subst hg
      simp [Signal.isRunStart] at hstart
    | messageDone m =>
      simp only [StreamEventHandler.handle_event,
        StreamEventHandler.on_message_done, List.mem_singleton] at hg
      subst hg
      simp [Signal.isRunStart] at hstart
    | onEndEv =>
      simp only [StreamEventHandler.handle_event,
        StreamEventHandler.on_end] at hg
      split at hg
      · simp only [List.mem_singleton] at hg
        subst hg
        simp [Signal.isRunStart] at hstart
      · simp at hg
    | onExceptionEv => simp [StreamEventHandler.handle_event] at hg
    | onTimeoutEv => simp [StreamEventHandler.handle_event] at hg
    | messageCreated => simp [StreamEventHandler.handle_event] at hg
    | messageDelta => simp [StreamEventHandler.handle_event] at hg
    | textDone => simp [StreamEventHandler.handle_event] at hg
    | toolCallDelta => simp [StreamEventHandler.handle_event] at hg
    | toolCallDone => simp [StreamEventHandler.handle_event] at hg

/-- C1 witness: a concrete stream — text created, one delta, end — at a
concrete context. -/
theorem C1_witness :
    (StreamEvent.onEndEv ∉ [StreamEvent.textCreated, StreamEvent.textDelta "hi"]) ∧
    (((StreamEventHandler.runStream ⟨"a", "r", "th", "u", "now"⟩
        (StreamHandlerState.init false)
        ([StreamEvent.textCreated, StreamEvent.textDelta "hi"] ++
          [StreamEvent.onEndEv])).2.countP Signal.isRunStart ≤ 1) ∧
     (∀ g ∈ (StreamEventHandler.handle_event ⟨"a", "r", "th", "u", "now"⟩
          (StreamHandlerState.init false) StreamEvent.textCreated).2,
        g.isRunStart = true →
          (StreamEvent.textCreated = StreamEvent.textCreated ∨
            StreamEvent.textCreated = StreamEvent.toolCallCreated) ∧
          (StreamHandlerState.init false).is_started = false ∧
          (StreamHandlerState.init false).is_submit_tool_call = false) ∧
     ((StreamEventHandler.runStream ⟨"a", "r", "th", "u", "now"⟩
         (StreamHandlerState.init false)
         ([StreamEvent.textCreated, StreamEvent.textDelta "hi"] ++
           [StreamEvent.onEndEv])).2 =
       (StreamEventHandler.runStream ⟨"a", "r", "th", "u", "now"⟩
         (StreamHandlerState.init false)
         [StreamEvent.textCreated, StreamEvent.textDelta "hi"]).2 ++
         [Signal.on_run_end "a" "r" "now" "th"]) ∧
     ((StreamEventHandler.runStream ⟨"a", "r", "th", "u", "now"⟩
         (StreamHandlerState.init false)
         [StreamEvent.textCreated, StreamEvent.textDelta "hi"]).2.countP
         Signal.isRunEnd = 0)) :=
  ⟨by decide,
   C1_run_start_once_strictly_before_run_end ⟨"a", "r", "th", "u", "now"⟩
     [StreamEvent.textCreated, StreamEvent.textDelta "hi"]
     (StreamHandlerState.init false) StreamEvent.textCreated (by decide)⟩

/-! ## C3 -/

/-- The assistant loop of `process_input` decomposes into well-formed
per-assistant segments: each opens with the start notification, closes
with the stop notification (also on the exception path, via the `except`
clause), and keeps any provider submission strictly between the two. -/
theorem processAssistantsLoop_segments
    (clientExists raisesDuringProcessing : String → Bool)
    (threadName : String) (sched : Bool) :
    ∀ assistants : List String, ∃ segs : List (List UiEvent),
      MainWindow.processAssistantsLoop clientExists raisesDuringProcessing
          threadName sched assistants = segs.flatten ∧
        segs.all (processedSegment sched) = true
  | [] => ⟨[], by simp [MainWindow.processAssistantsLoop]⟩
  | a :: rest => by
    obtain ⟨segs, hjoin, hall⟩ := processAssistantsLoop_segments
      clientExists raisesDuringProcessing threadName sched rest
    by_cases hc : clientExists a = true
    · by_cases hr : raisesDuringProcessing a = true
      · refine ⟨[[UiEvent.startProcessing a sched,
            UiEvent.submitToProvider a threadName,
            UiEvent.errorNotice MainWindow.processInputErrorMessage,
            UiEvent.stopProcessing a sched]], ?_, ?_⟩
        · simp [MainWindow.processAssistantsLoop,
            MainWindow.process_assistant_input, hc, hr]
        · simp [processedSegment]
      · refine ⟨[UiEvent.startProcessing a sched,
            UiEvent.submitToProvider a threadName,
            UiEvent.stopProcessing a sched] :: segs, ?_, ?_⟩
        · simp [MainWindow.processAssistantsLoop,
            MainWindow.process_assistant_input, hc, hr, hjoin]
        · simp [processedSegment, hall]
    · refine ⟨[UiEvent.startProcessing a sched,
          UiEvent.stopProcessing a sched] :: segs, ?_, ?_⟩
      · simp [MainWindow.processAssistantsLoop,
          MainWindow.process_assistant_input, hc, hjoin]
      · simp [processedSegment, hall]

/-- C3: with the pre-loop steps succeeding, the event trace of
`process_input` is a concatenation of per-assistant segments, each of
which emits the start-processing notification first, any provider
submission after it, and the stop-processing notification last — on
every exit path, including an exception during processing (caught by the
`except` clause, which emits the stop notification).  When the pre-loop
steps themselves raise, no start notification and no submission is ever
emitted. -/
theorem C3_start_stop_notifications_every_exit_path
    (clientExists raisesDuringProcessing : String → Bool)
    (assistants : List String) (threadName : String)
    (isScheduledTask : Bool) :
    (∃ segs : List (List UiEvent),
      MainWindow.process_input clientExists raisesDuringProcessing false
          assistants threadName isScheduledTask = segs.flatten ∧
        segs.all (processedSegment isScheduledTask) = true) ∧
    ((MainWindow.process_input clientExists raisesDuringProcessing true
        assistants threadName isScheduledTask).countP (fun ev =>
          match ev with
          | UiEvent.startProcessing _ _ => true
          | UiEvent.submitToProvider _ _ => true
          | _ => false) = 0) := by
  constructor
  · simpa [MainWindow.process_input] using
      processAssistantsLoop_segments clientExists raisesDuringProcessing
        threadName isScheduledTask assistants
  · simp [MainWindow.process_input, List.countP_cons]

/-! ## C2 -/

/-- Lookup misses exactly the ids outside the key list. -/
theorem lookupBinding_eq_none (tbl : BindingTable) (sid : Nat) :
    lookupBinding tbl sid = none ↔ sid ∉ tbl.map Prod.fst := by
  induction tbl with
  | nil => simp [lookupBinding]
  | cons p rest ih =>
    obtain ⟨k, v⟩ := p
    by_cases h : k = sid
    · subst h
      simp [lookupBinding]
    · simp only [lookupBinding, if_neg h, List.map_cons, List.mem_cons]
      rw [ih]
      constructor
      · intro hn hor
        rcases hor with h1 | h2
        · exact h h1.symm
        · exact hn h2
      · intro hn hm
        exact hn (Or.inr hm)

/-- Assignment `dict[k] = v` keeps the key list, appending `k` only when absent. -/
theorem keys_dictSet (tbl : BindingTable) (sid : Nat) (v : Option String) :
    (dictSet tbl sid v).map Prod.fst =
      tbl.map Prod.fst ++ (if dictContains tbl sid then [] else [sid]) := by
  induction tbl with
  | nil => simp [dictSet, dictContains, lookupBinding]
  | cons p rest ih =>
    obtain ⟨k, w⟩ := p
    by_cases h : k = sid
    · subst h
      simp [dictSet, dictContains, lookupBinding]
    · simp [dictSet, dictContains, lookupBinding, h, ih]

/-- Each scheduler callback preserves key-uniqueness of the binding
table. -/
theorem nodup_taskStep (tbl : BindingTable) (op : TaskOp)
    (h : (tbl.map Prod.fst).Nodup) :
    ((taskStep tbl op).map Prod.fst).Nodup := by
  have hset : ∀ (sid : Nat) (v : Option String),
      ((dictSet tbl sid v).map Prod.fst).Nodup := by
    intro sid v
    rw [keys_dictSet]
    by_cases hc : dictContains tbl sid = true
    · simpa [hc] using h
    · have hnone : lookupBinding tbl sid = none := by
        cases hl : lookupBinding tbl sid with
        | none => rfl
        | some w => exact absurd (by simp [dictContains, hl]) hc
      have habs : sid ∉ tbl.map Prod.fst :=
        (lookupBinding_eq_none tbl sid).mp hnone
      simp [hc, List.nodup_append, habs, h]
  have hdel : ∀ sid : Nat,
      ((MainWindow.cleanup_scheduled_thread tbl sid).map Prod.fst).Nodup := by
    intro sid
    unfold MainWindow.cleanup_scheduled_thread
    split
    · exact ((List.filter_sublist tbl).map Prod.fst).nodup h
    · exact h
  cases op with
  | started sid name =>
    simp only [taskStep, MainWindow.on_task_started]
    split
    · exact h
    · exact hset sid (some name)
  | execute sid useTitle f =>
    simp only [taskStep, MainWindow.handle_execution]
    exact hset sid _
  | completed sid => simpa only [taskStep] using hdel sid
  | failed sid => simpa only [taskStep] using hdel sid

/-- Key-uniqueness holds after any sequence of scheduler callbacks. -/
theorem nodup_runTaskOps_from (ops : List TaskOp) :
    ∀ tbl : BindingTable, (tbl.map Prod.fst).Nodup →
      ((ops.foldl taskStep tbl).map Prod.fst).Nodup := by
  induction ops with
  | nil => intro tbl h; exact h
  | cons op ops ih =>
    intro tbl h
    exact ih (taskStep tbl op) (nodup_taskStep tbl op h)

/-- C2: across any serialization of the scheduler callbacks — each holds
`thread_lock` for its whole body, so any concurrent invocation
serializes into such a sequence — the binding table never holds two
entries for one schedule id; and the whole read-modify-write sequence of
each callback (lookup-or-create, update, delete) runs inside a single
lock-held critical section. -/
theorem C2_binding_unique_and_lock_guarded (ops : List TaskOp)
    (tbl : BindingTable) (op : TaskOp) :
    ((runTaskOps ops).map Prod.fst).Nodup ∧
    accessesLocked 0 (opEvents tbl op) = true ∧
    (∃ mid : List LockEvent,
      opEvents tbl op = LockEvent.acquire :: (mid ++ [LockEvent.release]) ∧
        mid.all (fun ev => !ev.isLockEdge) = true) := by
  refine ⟨nodup_runTaskOps_from ops [] (by simp), ?_, ?_⟩
  · cases op with
    | started sid name =>
      by_cases hc : dictContains tbl sid = true <;>
        simp [opEvents, accessesLocked, hc]
    | execute sid useTitle f => simp [opEvents, accessesLocked]
    | completed sid =>
      by_cases hc : dictContains tbl sid = true <;>
        simp [opEvents, accessesLocked, hc]
    | failed sid =>
      by_cases hc : dictContains tbl sid = true <;>
        simp [opEvents, accessesLocked, hc]
  · cases op with
    | started sid name =>
      by_cases hc : dictContains tbl sid = true
      · exact ⟨[LockEvent.tableRead sid],
          by simp [opEvents, hc], by simp [LockEvent.isLockEdge]⟩
      · exact ⟨[LockEvent.tableRead sid, LockEvent.tableWrite sid],
          by simp [opEvents, hc], by simp [LockEvent.isLockEdge]⟩
    | execute sid useTitle f =>
      exact ⟨[LockEvent.tableRead sid, LockEvent.tableWrite sid],
        by simp [opEvents], by simp [LockEvent.isLockEdge]⟩
    | completed sid =>
      by_cases hc : dictContains tbl sid = true
      · exact ⟨[LockEvent.tableRead sid, LockEvent.tableWrite sid],
          by simp [opEvents, hc], by simp [LockEvent.isLockEdge]⟩
      · exact ⟨[LockEvent.tableRead sid],
          by simp [opEvents, hc], by simp [LockEvent.isLockEdge]⟩
    | failed sid =>
      by_cases hc : dictContains tbl sid = true
      · exact ⟨[LockEvent.tableRead sid, LockEvent.tableWrite sid],
          by simp [opEvents, hc], by simp [LockEvent.isLockEdge]⟩
      · exact ⟨[LockEvent.tableRead sid],
          by simp [opEvents, hc], by simp [LockEvent.isLockEdge]⟩

/-! ## C9 -/

/-- Lookup after `dict[k] = v`. -/
theorem lookupBinding_dictSet (tbl : BindingTable) (sid sid2 : Nat)
    (v : Option String) :
    lookupBinding (dictSet tbl sid v) sid2 =
      if sid2 = sid then some v else lookupBinding tbl sid2 := by
  induction tbl with
  | nil =>
    by_cases h : sid2 = sid
    · subst h
      simp [dictSet, lookupBinding]
    · simp [dictSet, lookupBinding, h,
        show ¬sid = sid2 from fun hh => h hh.symm]
  | cons p rest ih =>
    obtain ⟨k, w⟩ := p
    by_cases hk : k = sid
    · subst hk
      by_cases h2 : k = sid2
      · subst h2
        simp [dictSet, lookupBinding]
      · simp [dictSet, lookupBinding, h2,
          show ¬sid2 = k from fun hh => h2 hh.symm]
    · by_cases h2 : k = sid2
      · subst h2
        simp [dictSet, lookupBinding, hk,
          show ¬k = sid from hk]
      · simp [dictSet, lookupBinding, hk, h2, ih]

/-- Lookup after `del dict[k]`. -/
theorem lookupBinding_dictDelete (tbl : BindingTable) (sid sid2 : Nat) :
    lookupBinding (dictDelete tbl sid) sid2 =
      if sid2 = sid then none else lookupBinding tbl sid2 := by
  induction tbl with
  | nil => simp [dictDelete, lookupBinding]
  | cons p rest ih =>
    obtain ⟨k, w⟩ := p
    by_cases hk : k = sid
    · subst hk
      have hfe : dictDelete ((k, w) :: rest) k = dictDelete rest k := by
        simp [dictDelete]
      rw [hfe, ih]
      by_cases h2 : sid2 = k
      · simp [h2]
      · simp [h2, lookupBinding, show ¬k = sid2 from fun hh => h2 hh.symm]
    · have hfe : dictDelete ((k, w) :: rest) sid =
          (k, w) :: dictDelete rest sid := by
        simp [dictDelete, hk]
      rw [hfe]
      by_cases h2 : k = sid2
      · subst h2
        simp [lookupBinding, show ¬k = sid from hk]
      · simp [lookupBinding, h2, ih]

/-- Membership after `dict[k] = v`. -/
theorem dictContains_dictSet (tbl : BindingTable) (sid sid2 : Nat)
    (v : Option String) :
    dictContains (dictSet tbl sid v) sid2 =
      (dictContains tbl sid2 || sid2 == sid) := by
  unfold dictContains
  rw [lookupBinding_dictSet]
  by_cases h : sid2 = sid
  · simp [h]
  · simp [h, beq_eq_false_iff_ne.mpr h]

/-- Membership after `cleanup_scheduled_thread`. -/
theorem dictContains_cleanup (tbl : BindingTable) (sid sid2 : Nat) :
    dictContains (MainWindow.cleanup_scheduled_thread tbl sid) sid2 =
      (dictContains tbl sid2 && !(sid2 == sid)) := by
  unfold MainWindow.cleanup_scheduled_thread
  split
  · unfold dictContains
    rw [lookupBinding_dictDelete]
    by_cases h : sid2 = sid
    · simp [h]
    · simp [h, beq_eq_false_iff_ne.mpr h]
  · by_cases h : sid2 = sid
    · subst h
      rename_i hc
      simp only [Bool.not_eq_true] at hc
      simp [hc, beq_self_eq_true]
    · simp [beq_eq_false_iff_ne.mpr h]

/-- C9 counterexample: the binding is created by the `on_task_started`
callback, before any execution callback — after a trace consisting of a
single `on_task_started`, which contains no execute callback, the
binding already exists, contradicting creation on the first execution
callback. -/
theorem C9_counterexample_binding_created_before_any_execute :
    runTaskOps [TaskOp.started 0 "Scheduled_Thread_1"] =
      [(0, some "Scheduled_Thread_1")] ∧
    ¬(∀ ops : List TaskOp, (∀ op ∈ ops, ¬op.isExecute) →
        ∀ sid, dictContains (runTaskOps ops) sid = false) := by
  constructor
  · rfl
  · intro hclaim
    have h0 := hclaim [TaskOp.started 0 "Scheduled_Thread_1"] ?_ 0
    · rw [show runTaskOps [TaskOp.started 0 "Scheduled_Thread_1"] =
          [(0, some "Scheduled_Thread_1")] from rfl] at h0
      simp [dictContains, lookupBinding] at h0
    · intro op hop
      rw [List.mem_singleton.mp hop]
      simp [TaskOp.isExecute]

/-- C9 amended: the schedule-id-to-thread binding is created by the
`on_task_started` callback (when absent); an execute callback never
removes a binding (it only rewrites the bound name, and leaves it
unchanged when system-assistant titling is off, so a recurring task
reuses the same thread); only the terminal completed/failed callbacks
remove the binding, and they remove exactly the callback's own schedule
id. -/
theorem C9_binding_created_on_started_removed_on_terminal
    (tbl : BindingTable) (sid sid2 : Nat) (newThreadName : String)
    (useTitle : Bool) (updateTitle f : Option String → Option String) :
    (dictContains (taskStep tbl (TaskOp.started sid newThreadName)) sid2 =
      (dictContains tbl sid2 || sid2 == sid)) ∧
    (dictContains (taskStep tbl (TaskOp.execute sid useTitle updateTitle))
        sid2 = (dictContains tbl sid2 || sid2 == sid)) ∧
    (dictContains (taskStep tbl (TaskOp.completed sid)) sid2 =
      (dictContains tbl sid2 && !(sid2 == sid))) ∧
    (dictContains (taskStep tbl (TaskOp.failed sid)) sid2 =
      (dictContains tbl sid2 && !(sid2 == sid))) ∧
    (dictGet (taskStep tbl (TaskOp.execute sid false f)) sid =
      dictGet tbl sid) := by
  refine ⟨?_, ?_, ?_, ?_, ?_⟩
  · simp only [taskStep, MainWindow.on_task_started]
    split
    · rename_i hc
      by_cases h : sid2 = sid
      · subst h
        simp [hc]
      · simp [beq_eq_false_iff_ne.mpr h]
    · rw [dictContains_dictSet]
  · simp only [taskStep, MainWindow.handle_execution]
    rw [dictContains_dictSet]
  · simp only [taskStep]
    rw [dictContains_cleanup]
  · simp only [taskStep]
    rw [dictContains_cleanup]
  · simp only [taskStep, MainWindow.handle_execution, if_neg]
    unfold dictGet
    rw [lookupBinding_dictSet]
    simp [dictGet]

/-! ## C6 -/

/-- C6 counterexample: a failed-run signal for a thread other than the
displayed one still refreshes the conversation view — `on_run_failed`
has no staleness check, so the claim fails for the failed status. -/
theorem C6_counterexample_failed_signal_updates_stale_view :
    ((fun t => t == "displayed") "other" = false) ∧
    ((MainWindow.on_run_failed
        (fun _ => [ConversationMessage.mk (some "hello")])
        "a" "r1" "end" "429" "rate limited" "other").countP
        ViewAction.touchesConversationView ≠ 0) := by
  exact ⟨rfl, by decide⟩

/-- C6 amended: `on_run_update` signals whose thread is not the
displayed one are dropped silently for every run-update status; but
`on_run_failed` is not staleness-checked — it always appends a
diagnostics entry and refreshes the conversation view from the signal's
own thread. -/
theorem C6_stale_updates_dropped_failed_unchecked
    (isCurrent : String → Bool)
    (fetch : String → List ConversationMessage)
    (assistantName runId runStatus threadName runEndTime errorCode
      errorMessage : String)
    (isFirstMessage : Bool) (message : Option ConversationMessage)
    (h : isCurrent threadName = false) :
    MainWindow.on_run_update isCurrent fetch assistantName runId runStatus
        threadName isFirstMessage message = [] ∧
    MainWindow.on_run_failed fetch assistantName runId runEndTime errorCode
        errorMessage threadName =
      ViewAction.diagnosticsEndRun assistantName runId runEndTime
          ("Run failed due to error code: " ++ errorCode ++ ", message: "
            ++ errorMessage) ::
        MainWindow.update_conversation_messages (fetch threadName) := by
  refine ⟨?_, rfl⟩
  simp [MainWindow.on_run_update, h]

/-- C6 witness: a streaming update for a non-displayed thread is
dropped. -/
theorem C6_witness :
    ((fun t => t == "displayed") "other" = false) ∧
    (MainWindow.on_run_update (fun t => t == "displayed")
        (fun _ => [ConversationMessage.mk (some "hello")]) "a" "r1"
        "streaming" "other" true (some (ConversationMessage.mk (some "hi")))
        = [] ∧
     MainWindow.on_run_failed
        (fun _ => [ConversationMessage.mk (some "hello")]) "a" "r1" "end"
        "429" "rate limited" "other" =
      ViewAction.diagnosticsEndRun "a" "r1" "end"
          ("Run failed due to error code: " ++ "429" ++ ", message: "
            ++ "rate limited") ::
        MainWindow.update_conversation_messages
          ((fun _ => [ConversationMessage.mk (some "hello")]) "other")) :=
  ⟨by decide,
   C6_stale_updates_dropped_failed_unchecked (fun t => t == "displayed")
     (fun _ => [ConversationMessage.mk (some "hello")]) "a" "r1" "streaming"
     "other" "end" "429" "rate limited" true
     (some (ConversationMessage.mk (some "hi"))) (by decide)⟩

/-! ## C7 and C8 -/

/-- String `==` is the decision procedure of equality. -/
theorem strBeq_eq_decide (x y : String) : (x == y) = decide (x = y) := by
  by_cases h : x = y <;> simp [h]

/-- Closed form of the surviving attachments of the reconciliation
loop: the loop removes from the configuration exactly the attachments
whose file id occurs among the ids it iterates over. -/
theorem recon_fold_fst (l : List Attachment) :
    ∀ (cfg : List Attachment) (dels : List String),
      (l.foldl (fun acc attachment =>
          (remove_attachment_from_thread acc.1 attachment.file_id,
           if attachment.attachment_type = AttachmentType.imageFile
           then acc.2 else acc.2 ++ [attachment.file_id])) (cfg, dels)).1 =
        cfg.filter (fun a =>
          !((l.map (fun b => b.file_id)).contains a.file_id)) := by
  induction l with
  | nil => intro cfg dels; simp
  | cons b l ih =>
    intro cfg dels
    simp only [List.foldl_cons, List.map_cons]
    rw [ih]
    unfold remove_attachment_from_thread
    rw [List.filter_filter]
    apply List.filter_congr
    intro a _
    simp [List.contains_cons, Bool.not_or, Bool.and_comm, strBeq_eq_decide]

/-- Closed form of the remote deletions of the reconciliation loop: the
ids it iterates over, minus the image attachments, in order. -/
theorem recon_fold_snd (l : List Attachment) :
    ∀ (cfg : List Attachment) (dels : List String),
      (l.foldl (fun acc attachment =>
          (remove_attachment_from_thread acc.1 attachment.file_id,
           if attachment.attachment_type = AttachmentType.imageFile
           then acc.2 else acc.2 ++ [attachment.file_id])) (cfg, dels)).2 =
        dels ++ (l.filter (fun a =>
          !(a.attachment_type == AttachmentType.imageFile))).map
          (fun a => a.file_id) := by
  induction l with
  | nil => intro cfg dels; simp
  | cons b l ih =>
    intro cfg dels
    simp only [List.foldl_cons, List.filter_cons]
    by_cases hb : b.attachment_type = AttachmentType.imageFile
    · simp [hb, ih]
    · simp [hb, ih, beq_eq_false_iff_ne.mpr hb]

/-- Predicate `List.contains` is the decision procedure of membership. -/
theorem contains_eq_decide_mem (l : List String) (x : String) :
    l.contains x = decide (x ∈ l) := by
  simp

/-- The attachments surviving `update_attachments_from_ui_to_thread` are
exactly those whose file id occurs in the submitted set. -/
theorem update_attachments_fst (existing attachments_dicts : List Attachment) :
    (MainWindow.update_attachments_from_ui_to_thread existing
        attachments_dicts).1 =
      existing.filter (fun att =>
        (attachments_dicts.map (fun att => att.file_id)).contains
          att.file_id) := by
  simp only [MainWindow.update_attachments_from_ui_to_thread]
  rw [recon_fold_fst]
  apply List.filter_congr
  intro a ha
  rw [contains_eq_decide_mem, contains_eq_decide_mem, ← decide_not,
    decide_eq_decide]
  constructor
  · intro hni
    by_contra hnotin
    exact hni (List.mem_map.mpr
      ⟨a, List.mem_filter.mpr ⟨ha, by simpa using hnotin⟩, rfl⟩)
  · intro hin hmem
    obtain ⟨x, hx, hxid⟩ := List.mem_map.mp hmem
    obtain ⟨hxmem, hxpred⟩ := List.mem_filter.mp hx
    rw [hxid] at hxpred
    simp [hin] at hxpred

/-- When nothing is slated for removal, the reconciliation is a no-op
with no remote deletions. -/
theorem update_attachments_no_removals (cfg attachments_dicts : List Attachment)
    (h : cfg.filter (fun att =>
        !((attachments_dicts.map (fun att => att.file_id)).contains
          att.file_id)) = []) :
    MainWindow.update_attachments_from_ui_to_thread cfg attachments_dicts =
      (cfg, []) := by
  simp only [MainWindow.update_attachments_from_ui_to_thread]
  rw [h]
  rfl

/-- C7: every existing thread attachment whose file id is absent from
the submitted set is detached from the thread configuration (exactly
those with a submitted id survive), and the remotely deleted files are
exactly the detached non-image attachments — image attachments are
detached but never remotely deleted. -/
theorem C7_absent_attachments_detached_nonimage_deleted
    (existing attachments_dicts : List Attachment) :
    (MainWindow.update_attachments_from_ui_to_thread existing
        attachments_dicts).1 =
      existing.filter (fun att =>
        (attachments_dicts.map (fun att => att.file_id)).contains
          att.file_id) ∧
    (MainWindow.update_attachments_from_ui_to_thread existing
        attachments_dicts).2 =
      ((existing.filter (fun att =>
          !((attachments_dicts.map (fun att => att.file_id)).contains
            att.file_id))).filter (fun att =>
          !(att.attachment_type == AttachmentType.imageFile))).map
        (fun a => a.file_id) := by
  refine ⟨update_attachments_fst existing attachments_dicts, ?_⟩
  simp only [MainWindow.update_attachments_from_ui_to_thread]
  rw [recon_fold_snd]
  simp

/-- C8: reconciliation is idempotent — running it again right away with
the same submitted set finds nothing to remove, so it performs zero
detach operations and zero remote delete calls. -/
theorem C8_reconciliation_idempotent (existing attachments_dicts : List Attachment) :
    MainWindow.update_attachments_from_ui_to_thread
        (MainWindow.update_attachments_from_ui_to_thread existing
          attachments_dicts).1 attachments_dicts =
      ((MainWindow.update_attachments_from_ui_to_thread existing
          attachments_dicts).1, []) ∧
    ((MainWindow.update_attachments_from_ui_to_thread existing
        attachments_dicts).1).filter (fun att =>
        !((attachments_dicts.map (fun att => att.file_id)).contains
          att.file_id)) = [] := by
  have hsnd : ((MainWindow.update_attachments_from_ui_to_thread existing
      attachments_dicts).1).filter (fun att =>
        !((attachments_dicts.map (fun att => att.file_id)).contains
          att.file_id)) = [] := by
    rw [update_attachments_fst, List.filter_filter]
    have hfalse : ∀ a ∈ existing,
        (!((attachments_dicts.map (fun att => att.file_id)).contains
            a.file_id) &&
          (attachments_dicts.map (fun att => att.file_id)).contains
            a.file_id) = false := by
      intro a _
      cases (attachments_dicts.map (fun att => att.file_id)).contains
          a.file_id <;> rfl
    rw [List.filter_congr hfalse]
    simp
  exact ⟨update_attachments_no_removals _ attachments_dicts hsnd, hsnd⟩

end AzureAiAssistantTool
